import Mathlib

/-!
Shallow embedding of the getcdnimages repository: the Relay HTTP service in
its two variants (src/server.js, minimal; src/unnamed/part_000, with logging
and magic-byte sniffing) and the batch Downloader (src/bin/cdn-dl.js).
All definitions are translated from the JavaScript source; JS runtime
builtins (Number coercion, Math.min/max, string search) are modelled
explicitly below.
-/

/-- JavaScript number values as far as this code base observes them:
NaN, the two infinities, and finite values modelled as rationals. -/
inductive JSNum where
  | nan
  | posInf
  | negInf
  | fin (q : ℚ)
  deriving Repr, DecidableEq

/-- ASCII lower-casing of one character, as JS toLowerCase acts on the
ASCII fragment relevant to content types, URLs and header names. -/
def charLower (c : Char) : Char :=
  if 'A' ≤ c && c ≤ 'Z' then Char.ofNat (c.toNat + 32) else c

/-- JavaScript String.prototype.toLowerCase on the ASCII fragment. -/
def strLower (s : String) : String := ⟨s.data.map charLower⟩

/-- JavaScript String.prototype.startsWith. -/
def strStartsWith (s pre : String) : Bool := pre.data.isPrefixOf s.data

/-- Whether a character is trimmed by JavaScript String.prototype.trim. -/
def jsWhite (c : Char) : Bool := c = ' ' || c = '\t' || c = '\n' || c = '\r'

/-- JavaScript String.prototype.trim. -/
def jsTrim (s : String) : String :=
  ⟨((s.data.dropWhile jsWhite).reverse.dropWhile jsWhite).reverse⟩

/-- Numeric value of a decimal digit character. -/
def decDigitVal (c : Char) : Nat := c.toNat - 48

/-- Value of a big-endian list of decimal digit characters. -/
def digitsVal (cs : List Char) : Nat := cs.foldl (fun a c => 10 * a + decDigitVal c) 0

/-- Numeric value of a hexadecimal digit character. -/
def hexDigitVal (c : Char) : Nat :=
  if c.isDigit then c.toNat - 48
  else if 'a' ≤ c && c ≤ 'f' then c.toNat - 87
  else c.toNat - 55

/-- Value of a big-endian list of digit characters in radix r. -/
def radixVal (r : Nat) (cs : List Char) : Nat := cs.foldl (fun a c => r * a + hexDigitVal c) 0

/-- Whether a character is a hexadecimal digit. -/
def isHexDigit (c : Char) : Bool := c.isDigit || ('a' ≤ c && c ≤ 'f') || ('A' ≤ c && c ≤ 'F')

/-- Whether a character is an octal digit. -/
def isOctDigit (c : Char) : Bool := '0' ≤ c && c ≤ '7'

/-- Whether a character is a binary digit. -/
def isBinDigit (c : Char) : Bool := c = '0' || c = '1'

/-- Parse the exponent part of a JS decimal number literal: either nothing,
or e/E followed by an optionally signed digit string. -/
def parseExpPart : List Char → Option Int
  | [] => some 0
  | c :: r =>
    if c = 'e' || c = 'E' then
      match r with
      | '+' :: d => if !d.isEmpty && d.all Char.isDigit then some (digitsVal d) else none
      | '-' :: d => if !d.isEmpty && d.all Char.isDigit then some (-(digitsVal d : Int)) else none
      | d => if !d.isEmpty && d.all Char.isDigit then some (digitsVal d) else none
    else none

/-- Parse the mantissa of a JS decimal number literal: digits with an optional
decimal point, requiring at least one digit.  Returns the value and the
unconsumed rest. -/
def parseDecMantissa (cs : List Char) : Option (ℚ × List Char) :=
  let ip := cs.takeWhile Char.isDigit
  let r1 := cs.dropWhile Char.isDigit
  match r1 with
  | '.' :: r2 =>
    let fp := r2.takeWhile Char.isDigit
    let r3 := r2.dropWhile Char.isDigit
    if ip.isEmpty && fp.isEmpty then none
    else some ((digitsVal ip : ℚ) + (digitsVal fp : ℚ) / (10 : ℚ) ^ fp.length, r3)
  | _ => if ip.isEmpty then none else some ((digitsVal ip : ℚ), r1)

/-- Ten to an integer power. -/
def ratPow10 (e : Int) : ℚ :=
  match e with
  | .ofNat n => (10 : ℚ) ^ n
  | .negSucc n => ((10 : ℚ) ^ (n + 1))⁻¹

/-- Scale a parsed mantissa by the parsed exponent part, if valid. -/
def applyExpPart (m : ℚ) (rest : List Char) : Option ℚ :=
  match parseExpPart rest with
  | none => none
  | some e => some (if e = 0 then m else m * ratPow10 e)

/-- Parse an optionally signed JS decimal number literal with exponent. -/
def parseSignedDec (cs : List Char) : Option ℚ :=
  match cs with
  | '+' :: r => (parseDecMantissa r).bind fun p => applyExpPart p.1 p.2
  | '-' :: r => (parseDecMantissa r).bind fun p => (applyExpPart p.1 p.2).map Neg.neg
  | r => (parseDecMantissa r).bind fun p => applyExpPart p.1 p.2

/-- JavaScript Number(string) coercion: trimmed empty string is 0, Infinity
forms, radix-prefixed integer literals, or a signed decimal literal;
anything else is NaN. -/
def jsOfString (s : String) : JSNum :=
  let t := jsTrim s
  if t = "" then .fin 0
  else if t = "Infinity" || t = "+Infinity" then .posInf
  else if t = "-Infinity" then .negInf
  else
    match t.data with
    | '0' :: 'x' :: r => if !r.isEmpty && r.all isHexDigit then .fin (radixVal 16 r) else .nan
    | '0' :: 'X' :: r => if !r.isEmpty && r.all isHexDigit then .fin (radixVal 16 r) else .nan
    | '0' :: 'o' :: r => if !r.isEmpty && r.all isOctDigit then .fin (radixVal 8 r) else .nan
    | '0' :: 'O' :: r => if !r.isEmpty && r.all isOctDigit then .fin (radixVal 8 r) else .nan
    | '0' :: 'b' :: r => if !r.isEmpty && r.all isBinDigit then .fin (radixVal 2 r) else .nan
    | '0' :: 'B' :: r => if !r.isEmpty && r.all isBinDigit then .fin (radixVal 2 r) else .nan
    | cs =>
      match parseSignedDec cs with
      | some q => .fin q
      | none => .nan

/-- JavaScript Math.max of a number against a finite constant. -/
def jsMaxC (x : JSNum) (c : ℚ) : JSNum :=
  match x with
  | .nan => .nan
  | .posInf => .posInf
  | .negInf => .fin c
  | .fin q => .fin (max q c)

/-- JavaScript Math.min of a number against a finite constant. -/
def jsMinC (x : JSNum) (c : ℚ) : JSNum :=
  match x with
  | .nan => .nan
  | .posInf => .fin c
  | .negInf => .negInf
  | .fin q => .fin (min q c)

/-- Number(sp.get('timeout') || 15000): an absent or empty timeout parameter
falls back to the number 15000 before coercion (server.js line 72,
part_000 line 83). -/
def timeoutNumber (raw : Option String) : JSNum :=
  match raw with
  | none => .fin 15000
  | some s => if s = "" then .fin 15000 else jsOfString s

/-- Math.min(Math.max(Number(sp.get('timeout') || 15000), 1000), 120000):
the effective upstream fetch timeout in milliseconds. -/
def timeoutMs (raw : Option String) : JSNum :=
  jsMinC (jsMaxC (timeoutNumber raw) 1000) 120000

/-- Little-endian decimal digit characters of a positive number, with fuel
for structural recursion (fuel at least n suffices). -/
def natDecAux : Nat → Nat → List Char
  | 0, _ => []
  | _ + 1, 0 => []
  | fuel + 1, n + 1 => Nat.digitChar ((n + 1) % 10) :: natDecAux fuel ((n + 1) / 10)

/-- Decimal digit characters of a natural number, most significant first,
as JavaScript string interpolation renders a nonnegative integer. -/
def natDecL (n : Nat) : List Char :=
  if n = 0 then ['0'] else (natDecAux n n).reverse

/-- Decimal string of a natural number. -/
def natDec (n : Nat) : String := ⟨natDecL n⟩

/-- Image magic-byte sniffing, translated from sniffImageType in
src/unnamed/part_000 lines 106 to 113; bytes are naturals below 256. -/
def sniffImageType (b : List Nat) : Option String :=
  if b.length ≥ 3 && b[0]? == some 0xff && b[1]? == some 0xd8 && b[2]? == some 0xff then
    some "image/jpeg"
  else if b.length ≥ 8 && b[0]? == some 0x89 && b[1]? == some 0x50 && b[2]? == some 0x4e
      && b[3]? == some 0x47 && b[4]? == some 0x0d && b[5]? == some 0x0a
      && b[6]? == some 0x1a && b[7]? == some 0x0a then
    some "image/png"
  else if b.length ≥ 12 && b[0]? == some 0x47 && b[1]? == some 0x49 && b[2]? == some 0x46
      && b[3]? == some 0x38 then
    some "image/gif"
  else if b.length ≥ 12 && b[0]? == some 0x52 && b[1]? == some 0x49 && b[2]? == some 0x46
      && b[3]? == some 0x46 && b[8]? == some 0x57 && b[9]? == some 0x45
      && b[10]? == some 0x42 && b[11]? == some 0x50 then
    some "image/webp"
  else
    none

/-- Test of the case-insensitive regular expression /^https?:\/\//i used to
validate the url parameter. -/
def matchesHttpUrl (s : String) : Bool :=
  strStartsWith (strLower s) "http://" || strStartsWith (strLower s) "https://"

/-- Query parameters of a Relay /image request, as the handlers read them
through URLSearchParams get and getAll. -/
structure QueryParams where
  url : Option String := none
  timeout : Option String := none
  allowAny : Option String := none
  contentDisposition : Option String := none
  filename : Option String := none
  auth : Option String := none
  referer : Option String := none
  origin : Option String := none
  header : List String := []
  cookie : List String := []
  deriving Repr, DecidableEq

/-- allowAny is set exactly when the parameter is the string 1 or true
(sp.get('allowAny') === '1' || sp.get('allowAny') === 'true'). -/
def allowAnyFlag (q : QueryParams) : Bool :=
  q.allowAny == some "1" || q.allowAny == some "true"

/-- What the proxy observes of the upstream fetch response: res.ok,
res.status, selected headers, and the first chunk of the body. -/
structure UpstreamResp where
  respOk : Bool
  status : Nat
  ctype : Option String
  cdisp : Option String
  clen : Option String
  firstChunk : List Nat
  deriving Repr, DecidableEq

/-- Observable outcome of one proxyImage call: HTTP status sent to the
client, the ok field of an error JSON body (none when streaming), the
content-type of a streamed 200 response, the error message of an error
response, whether an upstream fetch was attempted, and the computed
timeout. -/
structure RelayOutcome where
  status : Nat
  okJson : Option Bool
  contentType : Option String
  errMsg : Option String
  fetchAttempted : Bool
  timeout : JSNum
  deriving Repr, DecidableEq

/-- proxyImage of src/server.js (minimal variant, lines 63 to 115): url
validation, timed fetch, then a content-type gate on the declared type
only, with no magic-byte sniffing.  The upstream argument is none when the
fetch rejects (network error or abort). -/
def proxyImageMin (q : QueryParams) (upstream : Option UpstreamResp) : RelayOutcome :=
  match q.url with
  | none => ⟨400, some false, none, some "missing url parameter", false, .nan⟩
  | some u =>
    if u = "" then ⟨400, some false, none, some "missing url parameter", false, .nan⟩
    else if !matchesHttpUrl u then ⟨400, some false, none, some "url must be http(s)", false, .nan⟩
    else
      let allowAny := allowAnyFlag q
      let tmo := timeoutMs q.timeout
      match upstream with
      | none => ⟨502, some false, none, some "fetch error", true, tmo⟩
      | some r =>
        if !r.respOk then
          ⟨502, some false, none, some ("upstream HTTP " ++ natDec r.status), true, tmo⟩
        else
          let ctype := strLower (r.ctype.getD "")
          if !allowAny && !strStartsWith ctype "image/" then
            ⟨415, some false, none, some ("unsupported content-type: " ++ ctype), true, tmo⟩
          else
            ⟨200, none, some (if ctype = "" then "application/octet-stream" else ctype),
              none, true, tmo⟩

/-- proxyImage of src/unnamed/part_000 (sniffing variant, lines 74 to 166):
like the minimal variant, but the first body chunk is read and its magic
bytes may substitute for a declared content-type that is missing or not
image/*; the declared type wins unchanged when it is already image/*. -/
def proxyImageSniff (q : QueryParams) (upstream : Option UpstreamResp) : RelayOutcome :=
  match q.url with
  | none => ⟨400, some false, none, some "missing url parameter", false, .nan⟩
  | some u =>
    if u = "" then ⟨400, some false, none, some "missing url parameter", false, .nan⟩
    else if !matchesHttpUrl u then ⟨400, some false, none, some "url must be http(s)", false, .nan⟩
    else
      let allowAny := allowAnyFlag q
      let tmo := timeoutMs q.timeout
      match upstream with
      | none => ⟨502, some false, none, some "fetch error", true, tmo⟩
      | some r =>
        if !r.respOk then
          ⟨502, some false, none, some ("upstream HTTP " ++ natDec r.status), true, tmo⟩
        else
          let upstreamType := strLower (r.ctype.getD "")
          let sniffed := sniffImageType r.firstChunk
          let outType :=
            if upstreamType = "" || !strStartsWith upstreamType "image/" then
              match sniffed with
              | some s => s
              | none => upstreamType
            else upstreamType
          if !allowAny && (outType = "" || !strStartsWith outType "image/") then
            ⟨415, some false, none,
              some ("unsupported content-type: "
                ++ (if upstreamType = "" then "unknown" else upstreamType)), true, tmo⟩
          else
            ⟨200, none, some (if outType = "" then "application/octet-stream" else outType),
              none, true, tmo⟩

/-- Update of a JS object modelled as an insertion-ordered association list:
assignment replaces the value in place, or appends a new key at the end. -/
def setAssoc {α : Type} (hs : List (String × α)) (k : String) (v : α) : List (String × α) :=
  if (hs.lookup k).isSome then hs.map (fun kv => if kv.1 = k then (k, v) else kv)
  else hs ++ [(k, v)]

/-- Bearer-prefixing rule shared verbatim by server.js line 42, part_000
line 43, and cdn-dl.js line 45. -/
def authValue (v : String) : String :=
  if strStartsWith v "Bearer " || strStartsWith v "Basic " then v else "Bearer " ++ v

/-- pushHeader of parseHeadersFromQuery: empty names are dropped and Cookie
values are merged onto one Cookie header joined by a semicolon and space. -/
def pushHeader (hs : List (String × String)) (k v : String) : List (String × String) :=
  if k = "" then hs
  else if strLower k = "cookie" then
    setAssoc hs "Cookie"
      (match hs.lookup "Cookie" with
       | some old => if old = "" then v else old ++ "; " ++ v
       | none => v)
  else setAssoc hs k v

/-- Index of the first colon of a string, as String.prototype.indexOf. -/
def colonIdx (s : String) : Option Nat := s.data.findIdx? (fun c => c = ':')

/-- One repeated header=K:V entry: split at the first colon, trim both
sides, drop entries whose colon is missing or at position 0. -/
def headerEntryPush (hs : List (String × String)) (h : String) : List (String × String) :=
  match colonIdx h with
  | some idx =>
    if idx > 0 then pushHeader hs (jsTrim ⟨h.data.take idx⟩) (jsTrim ⟨h.data.drop (idx + 1)⟩)
    else hs
  | none => hs

/-- parseHeadersFromQuery of src/server.js lines 17 to 50: repeated header
entries, then auth (Bearer-prefixed), referer, origin, then cookies. -/
def parseHeadersBase (q : QueryParams) : List (String × String) :=
  let hs := q.header.foldl headerEntryPush []
  let hs :=
    match q.auth with
    | some a => if a = "" then hs else pushHeader hs "Authorization" (authValue a)
    | none => hs
  let hs :=
    match q.referer with
    | some rf => if rf = "" then hs else pushHeader hs "Referer" rf
    | none => hs
  let hs :=
    match q.origin with
    | some og => if og = "" then hs else pushHeader hs "Origin" og
    | none => hs
  q.cookie.foldl (fun acc c => pushHeader acc "Cookie" c) hs

/-- Default Accept header of the part_000 variant. -/
def acceptDefault : String := "image/avif,image/webp,image/*;q=0.9,*/*;q=0.8"

/-- Default User-Agent header of the part_000 variant. -/
def userAgentDefault : String :=
  "Mozilla/5.0 (Windows NT 10.0; Win64; x64) AppleWebKit/537.36 (KHTML, like Gecko) Chrome/124 Safari/537.36"

/-- parseHeadersFromQuery of src/unnamed/part_000 lines 18 to 55: the same
assembly plus browser-like Accept and User-Agent defaults when those keys
are absent or empty. -/
def parseHeadersDefaults (q : QueryParams) : List (String × String) :=
  let hs := parseHeadersBase q
  let hs :=
    match hs.lookup "Accept" with
    | some a => if a = "" then setAssoc hs "Accept" acceptDefault else hs
    | none => hs ++ [("Accept", acceptDefault)]
  match hs.lookup "User-Agent" with
  | some a => if a = "" then setAssoc hs "User-Agent" userAgentDefault else hs
  | none => hs ++ [("User-Agent", userAgentDefault)]

/-- Options accumulated by parseArgs of src/bin/cdn-dl.js lines 17 to 59.
Header values and url entries are Option String because a flag at the very
end of argv stores the JS value undefined. -/
structure DlOpts where
  urls : List (Option String)
  headers : List (String × Option String)
  outDir : Option String
  concurrency : JSNum
  retries : JSNum
  input : Option String
  help : Bool
  deriving Repr, DecidableEq

/-- Defaults of parseArgs line 18. -/
def dlDefaults : DlOpts := ⟨[], [], some "downloads", .fin 4, .fin 2, none, false⟩

/-- Number(next() || d) || d: the numeric-flag coercion of the concurrency
and retry flags, where NaN and 0 both fall back to the default. -/
def jsNumOr (v : Option String) (d : ℚ) : JSNum :=
  match v with
  | none => .fin d
  | some s =>
    if s = "" then .fin d
    else
      match jsOfString s with
      | .nan => .fin d
      | .fin x => if x = 0 then .fin d else .fin x
      | x => x

/-- The --header "K: V" argument of the Downloader (no cookie merging
here; direct object assignment). -/
def dlHeaderArg (o : DlOpts) (h : String) : DlOpts :=
  if h = "" then o
  else
    match colonIdx h with
    | some idx =>
      if idx > 0 then
        let k := jsTrim ⟨h.data.take idx⟩
        let w := jsTrim ⟨h.data.drop (idx + 1)⟩
        { o with headers := setAssoc o.headers k (some w) }
      else o
    | none => o

/-- The --cookie argument of the Downloader: merged onto one Cookie header. -/
def dlCookieArg (o : DlOpts) (v : String) : DlOpts :=
  if v = "" then o
  else
    let merged :=
      match o.headers.lookup "Cookie" with
      | some (some old) => if old = "" then v else old ++ "; " ++ v
      | _ => v
    { o with headers := setAssoc o.headers "Cookie" (some merged) }

/-- parseArgsGo models the argument loop of parseArgs (src/bin/cdn-dl.js
lines 19 to 57): one step per argv element, flags consuming the following
element through next(); the help flag models process.exit(0) by stopping. -/
def parseArgsGo : List String → DlOpts → DlOpts
  | [], o => o
  | a :: rest, o =>
    if a = "--url" then
      match rest with
      | v :: r => parseArgsGo r { o with urls := o.urls ++ [some v] }
      | [] => { o with urls := o.urls ++ [none] }
    else if a = "--input" then
      match rest with
      | v :: r => parseArgsGo r { o with input := some v }
      | [] => { o with input := none }
    else if a = "--output" then
      match rest with
      | v :: r => parseArgsGo r { o with outDir := some v }
      | [] => { o with outDir := none }
    else if a = "--concurrency" then
      match rest with
      | v :: r => parseArgsGo r { o with concurrency := jsNumOr (some v) 4 }
      | [] => { o with concurrency := jsNumOr none 4 }
    else if a = "--retry" then
      match rest with
      | v :: r => parseArgsGo r { o with retries := jsNumOr (some v) 2 }
      | [] => { o with retries := jsNumOr none 2 }
    else if a = "--header" then
      match rest with
      | h :: r => parseArgsGo r (dlHeaderArg o h)
      | [] => o
    else if a = "--cookie" then
      match rest with
      | v :: r => parseArgsGo r (dlCookieArg o v)
      | [] => o
    else if a = "--auth" then
      match rest with
      | v :: r =>
        parseArgsGo r
          (if v = "" then o
           else { o with headers := setAssoc o.headers "Authorization" (some (authValue v)) })
      | [] => o
    else if a = "--referer" then
      match rest with
      | v :: r => parseArgsGo r { o with headers := setAssoc o.headers "Referer" (some v) }
      | [] => { o with headers := setAssoc o.headers "Referer" none }
    else if a = "--origin" then
      match rest with
      | v :: r => parseArgsGo r { o with headers := setAssoc o.headers "Origin" (some v) }
      | [] => { o with headers := setAssoc o.headers "Origin" none }
    else if a = "-h" || a = "--help" then { o with help := true }
    else if !(a == "") && !strStartsWith a "-" then
      parseArgsGo rest { o with urls := o.urls ++ [some a] }
    else parseArgsGo rest o

/-- parseArgs applied to the default options. -/
def parseArgs (argv : List String) : DlOpts := parseArgsGo argv dlDefaults

/-- JSON values as far as the POST /image body handling observes them. -/
inductive JSVal where
  | vNull
  | vBool (b : Bool)
  | vNum (x : JSNum)
  | vStr (s : String)
  | vObj
  deriving Repr, DecidableEq

/-- JavaScript truthiness of a JSON value. -/
def jsTruthy : JSVal → Bool
  | .vNull => false
  | .vBool b => b
  | .vNum x =>
    match x with
    | .nan => false
    | .fin q => decide (q ≠ 0)
    | _ => true
  | .vStr s => decide (s ≠ "")
  | .vObj => true

/-- Truthiness of a possibly absent JSON field (absent is undefined, falsy). -/
def jsTruthyOpt : Option JSVal → Bool
  | none => false
  | some v => jsTruthy v

/-- handlePostImage line 136 of server.js (identically line 187 of
part_000): sp.set('allowAny', ...) happens only under a truthiness guard,
and then always stores the string 1. -/
def postAllowAnyParam (a : Option JSVal) : Option String :=
  if jsTruthyOpt a then some (if jsTruthyOpt a then "1" else "0") else none

/-- The allowAny flag that proxyImage finally computes for a POST body
whose allowAny field is a. -/
def postImageAllowAny (a : Option JSVal) : Bool :=
  allowAnyFlag { allowAny := postAllowAnyParam a }

/-- Character class of [A-Za-z0-9._-] kept by the sanitizers. -/
def isSafeChar (c : Char) : Bool :=
  ('a' ≤ c && c ≤ 'z') || ('A' ≤ c && c ≤ 'Z') || ('0' ≤ c && c ≤ '9')
    || c = '.' || c = '_' || c = '-'

/-- sanitizeName of cdn-dl.js lines 96 to 98: every character outside
[A-Za-z0-9._-] becomes an underscore. -/
def sanitizeName (s : String) : String :=
  ⟨s.data.map (fun c => if isSafeChar c then c else '_')⟩

/-- Locate the characters following the first scheme separator of a
hierarchical URL, requiring a nonempty scheme before the colon; none models
a new URL(u) constructor throw (or a non-hierarchical URL shape). -/
def schemeSepAux : List Char → Option (List Char)
  | [] => none
  | ':' :: '/' :: '/' :: r => some r
  | ':' :: _ => none
  | _ :: r => schemeSepAux r

/-- Remainder of a URL after scheme://, or none when invalid. -/
def urlAfterScheme (cs : List Char) : Option (List Char) :=
  match cs with
  | [] => none
  | c :: _ => if c = ':' then none else schemeSepAux cs

/-- Skip the authority: everything up to the first slash, question mark or
hash belongs to host and port. -/
def afterAuthority : List Char → List Char
  | [] => []
  | c :: r => if c = '/' || c = '?' || c = '#' then c :: r else afterAuthority r

/-- The pathname: from the leading slash up to the query or fragment,
defaulting to a single slash. -/
def pathPart (cs : List Char) : List Char :=
  match cs with
  | '/' :: _ => cs.takeWhile (fun c => !(c = '?' || c = '#'))
  | _ => ['/']

/-- new URL(u).pathname, modelled for scheme://authority/path URLs; none
when the constructor would throw. -/
def urlPathname (u : String) : Option String :=
  match urlAfterScheme u.data with
  | none => none
  | some r => some ⟨pathPart (afterAuthority r)⟩

/-- path.basename: strip trailing slashes, then take the part after the
last remaining slash. -/
def pathBasename (p : String) : String :=
  let stripped := (p.data.reverse.dropWhile (fun c => c = '/')).reverse
  ⟨(stripped.reverse.takeWhile (fun c => !(c = '/'))).reverse⟩

/-- pickFilenameFromUrl of cdn-dl.js lines 100 to 108: the sanitized
basename of the URL path, or file when empty or unparsable. -/
def pickFilenameFromUrl (u : String) : String :=
  match urlPathname u with
  | none => "file"
  | some p =>
    let b := pathBasename p
    sanitizeName (if b = "" then "file" else b)

/-- Case-insensitive literal prefix match returning the rest of the input. -/
def ciStripLit : List Char → List Char → Option (List Char)
  | [], cs => some cs
  | _ :: _, [] => none
  | p :: ps, c :: cs => if charLower p = charLower c then ciStripLit ps cs else none

/-- Second alternative of the content-disposition regex: filename=, an
optional quote, then one or more characters that are not quote or
semicolon. -/
def dispAltPlain (cs : List Char) : Option (List Char) :=
  match ciStripLit "filename=".data cs with
  | some rest =>
    let rest2 := match rest with
      | '"' :: t => t
      | t => t
    let cap := rest2.takeWhile (fun c => !(c = '"' || c = ';'))
    if cap.isEmpty then none else some cap
  | none => none

/-- Both alternatives of /filename\*=UTF-8''([^;]+)|filename="?([^";]+)"?/i
tried at one position, first alternative first. -/
def dispMatchAt (cs : List Char) : Option (List Char) :=
  match ciStripLit "filename*=UTF-8''".data cs with
  | some rest =>
    let cap := rest.takeWhile (fun c => !(c = ';'))
    if cap.isEmpty then dispAltPlain cs else some cap
  | none => dispAltPlain cs

/-- Left-to-right scan of the subject string, as RegExp.prototype.exec
finds the leftmost match. -/
def dispScan : List Char → Option (List Char)
  | [] => none
  | c :: rest =>
    match dispMatchAt (c :: rest) with
    | some cap => some cap
    | none => dispScan rest

/-- Whether a byte is a UTF-8 continuation byte. -/
def isContByte (b : Nat) : Bool := 0x80 ≤ b && b < 0xc0

/-- UTF-8 decoding of a byte list with fuel for structural recursion (the
list length suffices, each step consuming at least one byte), rejecting
overlong forms, surrogates and out-of-range code points as
decodeURIComponent does. -/
def utf8DecodeAux : Nat → List Nat → Option (List Char)
  | _, [] => some []
  | 0, _ :: _ => none
  | fuel + 1, b :: r =>
    if b < 0x80 then (utf8DecodeAux fuel r).map (fun t => Char.ofNat b :: t)
    else if b < 0xc2 then none
    else if b < 0xe0 then
      match r with
      | b2 :: r2 =>
        if isContByte b2 then
          (utf8DecodeAux fuel r2).map (fun t => Char.ofNat ((b - 0xc0) * 0x40 + (b2 - 0x80)) :: t)
        else none
      | [] => none
    else if b < 0xf0 then
      match r with
      | b2 :: b3 :: r3 =>
        if isContByte b2 && isContByte b3 then
          let cp := (b - 0xe0) * 0x1000 + (b2 - 0x80) * 0x40 + (b3 - 0x80)
          if cp < 0x800 || (0xd800 ≤ cp && cp < 0xe000) then none
          else (utf8DecodeAux fuel r3).map (fun t => Char.ofNat cp :: t)
        else none
      | _ => none
    else if b < 0xf5 then
      match r with
      | b2 :: b3 :: b4 :: r4 =>
        if isContByte b2 && isContByte b3 && isContByte b4 then
          let cp := (b - 0xf0) * 0x40000 + (b2 - 0x80) * 0x1000 + (b3 - 0x80) * 0x40 + (b4 - 0x80)
          if cp < 0x10000 || 0x10ffff < cp then none
          else (utf8DecodeAux fuel r4).map (fun t => Char.ofNat cp :: t)
        else none
      | _ => none
    else none

/-- UTF-8 decoding of a byte list. -/
def utf8Decode (bs : List Nat) : Option (List Char) := utf8DecodeAux bs.length bs

/-- Percent-decoding to UTF-8 code units; non-escaped characters contribute
their own UTF-8 encoding; none models a URIError throw on a malformed
escape. -/
def pctBytes : List Char → Option (List Nat)
  | [] => some []
  | '%' :: a :: b :: r =>
    if isHexDigit a && isHexDigit b then
      (pctBytes r).map (fun t => (16 * hexDigitVal a + hexDigitVal b) :: t)
    else none
  | '%' :: _ => none
  | c :: r => (pctBytes r).map (fun t => (String.utf8EncodeChar c).map (fun u => u.toNat) ++ t)

/-- decodeURIComponent; none models a URIError throw. -/
def decodeURIComp (s : String) : Option String :=
  (pctBytes s.data).bind fun bs => (utf8Decode bs).map fun cs => ⟨cs⟩

/-- filenameFromDisposition of cdn-dl.js lines 110 to 116: regex capture,
percent-decode, sanitize.  The error case models the uncaught URIError a
malformed escape raises inside downloadOne's try block. -/
def filenameFromDispositionE (d : Option String) : Except Unit (Option String) :=
  match d with
  | none => .ok none
  | some s =>
    if s = "" then .ok none
    else
      match dispScan s.data with
      | none => .ok none
      | some cap =>
        match decodeURIComp ⟨cap⟩ with
        | some dec => .ok (some (sanitizeName dec))
        | none => .error ()

/-- Index of the last dot of a character list, if any. -/
def lastDotIdx (cs : List Char) : Option Nat :=
  (cs.reverse.findIdx? (fun c => c = '.')).map (fun i => cs.length - 1 - i)

/-- path.extname and the basename with that extension stripped, as
downloadOne uses them, modelled for ordinary file names: the extension
starts at the last dot when that dot is not the first character. -/
def extSplit (base : String) : String × String :=
  match lastDotIdx base.data with
  | some i => if i > 0 then (⟨base.data.take i⟩, ⟨base.data.drop i⟩) else (base, "")
  | none => (base, "")

/-- Candidate path of the collision loop: name (i)ext inside dir. -/
def candPath (dir name ext : String) (i : Nat) : String :=
  dir ++ "/" ++ (name ++ " (" ++ natDec i ++ ")" ++ ext)

/-- The while loop of uniquePath (cdn-dl.js lines 122 to 131), with fuel
bounding the number of membership tests; fs is the set of existing paths
consulted by fs.existsSync. -/
def uniquePathGo (fs : List String) (dir name ext : String) : Nat → Nat → String → String
  | 0, _, p => p
  | fuel + 1, i, p =>
    if p ∈ fs then uniquePathGo fs dir name ext fuel (i + 1) (candPath dir name ext i)
    else p

/-- uniquePath: starting from dir/base, append a parenthesized counter
before the extension until the path names no existing file.  Fuel
fs.length + 1 suffices because the candidates are pairwise distinct. -/
def uniquePath (fs : List String) (dir base : String) : String :=
  uniquePathGo fs dir (extSplit base).1 (extSplit base).2 (fs.length + 1) 1 (dir ++ "/" ++ base)

/-- One upstream fetch attempt as downloadOne observes it: either the
fetch promise rejects with a message, or a response arrives with ok flag,
status, content-type, content-disposition and a body whose streaming to
disk either completes or fails with a message. -/
inductive AttemptSpec where
  | netErr (msg : String)
  | resp (respOk : Bool) (status : Nat) (ctype : Option String) (cdisp : Option String)
      (streamErr : Option String)
  deriving Repr, DecidableEq

/-- One iteration of downloadOne's try block (cdn-dl.js lines 137 to 149):
status gate, content-type gate, filename resolution, collision-free path,
file creation by fs.createWriteStream, then streaming.  Errors carry the
String(err) rendering and the file system state after the attempt; a
stream failure leaves the created file in place. -/
def runAttempt (url outDir : String) (fs : List String) (a : AttemptSpec) :
    Except (String × List String) (String × List String) :=
  match a with
  | .netErr m => .error (m, fs)
  | .resp rok status ctype cdisp streamErr =>
    if !rok then .error ("Error: HTTP " ++ natDec status, fs)
    else
      let ct := ctype.getD ""
      if !strStartsWith (strLower ct) "image/" then
        .error ("Error: Content-Type not image/* (" ++ ct ++ ")", fs)
      else
        match filenameFromDispositionE cdisp with
        | .error _ => .error ("URIError: URI malformed", fs)
        | .ok fOpt =>
          let filename :=
            match fOpt with
            | some s => if s = "" then pickFilenameFromUrl url else s
            | none => pickFilenameFromUrl url
          let outPath := uniquePath fs outDir filename
          let fs2 := fs ++ [outPath]
          match streamErr with
          | some e => .error (e, fs2)
          | none => .ok (outPath, fs2)

/-- The failure message an attempt produces, independent of the file
system state. -/
def failMsgOf (a : AttemptSpec) : Option String :=
  match a with
  | .netErr m => some m
  | .resp rok status ctype cdisp streamErr =>
    if !rok then some ("Error: HTTP " ++ natDec status)
    else
      let ct := ctype.getD ""
      if !strStartsWith (strLower ct) "image/" then
        some ("Error: Content-Type not image/* (" ++ ct ++ ")")
      else
        match filenameFromDispositionE cdisp with
        | .error _ => some "URIError: URI malformed"
        | .ok _ => streamErr

/-- Comparison attempt <= retries on a JS number. -/
def jsLeNat (n : Nat) (x : JSNum) : Bool :=
  match x with
  | .nan => false
  | .posInf => true
  | .negInf => false
  | .fin q => decide ((n : ℚ) ≤ q)

/-- Number of loop bodies the while (attempt++ <= retries) loop executes
for a finite nonnegative retries value; 0 for NaN and negative values. -/
def jsAttemptBound (x : JSNum) : Nat :=
  match x with
  | .fin q => if q < 0 then 0 else q.num.toNat / q.den + 1
  | _ => 0

/-- Observable trace of one downloadOne call: the outcome record it
returns, the file system afterwards, the number of fetch attempts made and
the backoff delays slept in order. -/
structure DlTrace where
  resUrl : String
  resOk : Bool
  resPath : Option String
  resErr : Option String
  fsAfter : List String
  attemptsMade : Nat
  delays : List Nat
  deriving Repr, DecidableEq

/-- The retry loop of downloadOne (cdn-dl.js lines 133 to 156).  made
counts executed attempts (the JS attempt variable before the post
increment of the loop condition); world gives the result of each fetch
attempt in order. -/
def downloadOneGo (url outDir : String) (world : Nat → AttemptSpec) (retries : JSNum) :
    Nat → Nat → List String → Option String → List Nat → DlTrace
  | 0, made, fs, lastErr, delays =>
    ⟨url, false, none, some (lastErr.getD "null"), fs, made, delays⟩
  | fuel + 1, made, fs, lastErr, delays =>
    if !jsLeNat made retries then
      ⟨url, false, none, some (lastErr.getD "null"), fs, made, delays⟩
    else
      let attempt := made + 1
      match runAttempt url outDir fs (world made) with
      | .ok (p, fs2) => ⟨url, true, some p, none, fs2, attempt, delays⟩
      | .error (m, fs2) =>
        if jsLeNat attempt retries then
          downloadOneGo url outDir world retries fuel attempt fs2 (some m)
            (delays ++ [250 * attempt])
        else downloadOneGo url outDir world retries fuel attempt fs2 (some m) delays

/-- downloadOne of cdn-dl.js lines 133 to 156, with the upstream world and
the initial file system as explicit model inputs; the headers argument is
carried opaquely as in the source. -/
def downloadOne (url : String) (hdrs : List (String × Option String)) (outDir : String)
    (retries : JSNum) (world : Nat → AttemptSpec) (fs0 : List String) : DlTrace :=
  downloadOneGo url outDir world retries (jsAttemptBound retries + 1) 0 fs0 none []

/-- Little-endian value of decimal digit characters, the proof-side
inverse of natDecAux. -/
def valL (cs : List Char) : Nat := cs.foldr (fun c a => decDigitVal c + 10 * a) 0

/-- The sequence of candidate paths the collision loop tests, index 0
being the initial dir/base. -/
def cseqNE (dir name ext : String) (j : Nat) : String :=
  if j = 0 then dir ++ "/" ++ (name ++ ext) else candPath dir name ext j

/-- Concrete GET /image request: a valid http url, every other parameter
absent (in particular allowAny unset). -/
def qReqC1 : QueryParams := { url := some "http://cdn.example/a" }

/-- Concrete upstream response: 2xx, declared text/plain, body beginning
with the JPEG magic bytes FF D8 FF. -/
def upC1 : UpstreamResp := ⟨true, 200, some "text/plain", none, none, [0xff, 0xd8, 0xff, 0xe0]⟩

/-- Concrete GET /image request for the declared-image-type case. -/
def qReqC4 : QueryParams := { url := some "http://cdn.example/p" }

/-- Concrete upstream response: declared image/png, body beginning with
JPEG (not PNG) magic bytes. -/
def upC4 : UpstreamResp := ⟨true, 200, some "image/png", none, none, [0xff, 0xd8, 0xff, 0xe0]⟩

/-- The failing input for the cleanup claim: every attempt passes the
status and content-type gates but the body stream errors while being
written to disk. -/
def worldStreamFail : Nat → AttemptSpec :=
  fun _ => .resp true 200 (some "image/jpeg") none (some "Error: read ECONNRESET")

lemma getElem?_of_take_three {l : List Nat} {a b c : Nat} (h : l.take 3 = [a, b, c]) :
    l[0]? = some a ∧ l[1]? = some b ∧ l[2]? = some c ∧ 3 ≤ l.length := by
  match l with
  | [] => simp at h
  | [x] => simp at h
  | [x, y] => simp at h
  | x :: y :: z :: t =>
    simp [List.take] at h
    obtain ⟨h1, h2, h3⟩ := h
    subst h1; subst h2; subst h3
    refine ⟨by simp, by simp, by simp, by simp⟩

lemma sniff_of_take_jpeg {l : List Nat} (h : l.take 3 = [0xff, 0xd8, 0xff]) :
    sniffImageType l = some "image/jpeg" := by
  obtain ⟨h0, h1, h2, hlen⟩ := getElem?_of_take_three h
  simp [sniffImageType, h0, h1, h2, hlen]

/-- Claim C1 (amended): for the sniffing Relay variant (src/unnamed/part_000),
a 2xx upstream response whose first chunk begins FF D8 FF and whose declared
content-type is text/plain resolves, with allowAny unset, to content-type
image/jpeg and a 200 streamed response instead of a 415 rejection. -/
theorem relay_sniff_text_plain_jpeg_ok
    (q : QueryParams) (u : String) (r : UpstreamResp)
    (hu : q.url = some u) (hm : matchesHttpUrl u = true) (ha : q.allowAny = none)
    (hok : r.respOk = true) (hct : strLower (r.ctype.getD "") = "text/plain")
    (hmagic : r.firstChunk.take 3 = [0xff, 0xd8, 0xff]) :
    (proxyImageSniff q (some r)).status = 200 ∧
    (proxyImageSniff q (some r)).contentType = some "image/jpeg" := by
  have hne : u ≠ "" := by intro h; subst h; exact absurd hm (by decide)
  have hsniff := sniff_of_take_jpeg hmagic
  have hflag : allowAnyFlag q = false := by simp [allowAnyFlag, ha]
  simp +decide [proxyImageSniff, hu, hne, hm, hok, hflag, hct, hsniff]


/-- Claim C1 counterexample: the minimal Relay variant (src/server.js) does
no sniffing and answers 415, not 200, on the very input the claim covers:
upstream 2xx, body beginning FF D8 FF, declared text/plain, allowAny unset. -/
theorem relay_min_text_plain_jpeg_cex :
    upC1.respOk = true ∧ upC1.firstChunk.take 3 = [0xff, 0xd8, 0xff] ∧
    strLower (upC1.ctype.getD "") = "text/plain" ∧ allowAnyFlag qReqC1 = false ∧
    (proxyImageMin qReqC1 (some upC1)).status = 415 ∧
    (proxyImageMin qReqC1 (some upC1)).status ≠ 200 := by decide

/-- Concrete instance of the amended claim C1 theorem. -/
theorem relay_sniff_text_plain_jpeg_ok_witness :
    (proxyImageSniff qReqC1 (some upC1)).status = 200 ∧
    (proxyImageSniff qReqC1 (some upC1)).contentType = some "image/jpeg" :=
  relay_sniff_text_plain_jpeg_ok qReqC1 "http://cdn.example/a" upC1 rfl (by decide) rfl rfl
    (by decide) (by decide)

/-- Claim C2 (amended): the effective upstream timeout is Number(timeout)
clamped into 1000..120000 for a present, non-empty, numeric parameter; it is
15000 when the parameter is absent or empty; and it is NaN (no clamping into
the interval) when the parameter is non-empty and non-numeric. -/
theorem relay_timeout_clamp :
    (∀ s v, s ≠ "" → jsOfString s = .fin v →
      timeoutMs (some s) = .fin (min (max v 1000) 120000)) ∧
    timeoutMs none = .fin 15000 ∧
    timeoutMs (some "") = .fin 15000 ∧
    (∀ s, jsOfString s = .nan → timeoutMs (some s) = .nan) := by
  refine ⟨?_, by decide, by decide, ?_⟩
  · intro s v hs hv
    simp [timeoutMs, timeoutNumber, hs, hv, jsMaxC, jsMinC]
  · intro s hv
    by_cases hs : s = ""
    · subst hs; exact absurd hv (by decide)
    · simp [timeoutMs, timeoutNumber, hs, hv, jsMaxC, jsMinC]

/-- Concrete instances of the amended claim C2 theorem. -/
theorem relay_timeout_clamp_witness :
    timeoutMs (some "42") = .fin (min (max 42 1000) 120000) ∧
    timeoutMs (some "abc") = .nan :=
  ⟨relay_timeout_clamp.1 "42" 42 (by decide) (by decide),
   relay_timeout_clamp.2.2.2 "abc" (by decide)⟩

/-- Claim C2 counterexample: the non-numeric timeout abc yields NaN, not the
15000 default the claim asserts for non-numeric values. -/
theorem relay_timeout_nonnumeric_cex :
    jsOfString "abc" = JSNum.nan ∧ timeoutMs (some "abc") ≠ JSNum.fin 15000 := by decide

/-- Claim C4: in both Relay variants, when the declared content-type (as the
code reads it, lower-cased) already starts with image/, the response is 200
and its content-type equals that declared type, for every body whatsoever;
the sniffed magic bytes never relabel it. -/
theorem relay_image_type_passthrough
    (q : QueryParams) (u : String) (r : UpstreamResp)
    (hu : q.url = some u) (hm : matchesHttpUrl u = true) (hok : r.respOk = true)
    (hit : strStartsWith (strLower (r.ctype.getD "")) "image/" = true) :
    (proxyImageSniff q (some r)).status = 200 ∧
    (proxyImageSniff q (some r)).contentType = some (strLower (r.ctype.getD "")) ∧
    (proxyImageMin q (some r)).status = 200 ∧
    (proxyImageMin q (some r)).contentType = some (strLower (r.ctype.getD "")) := by
  have hne : u ≠ "" := by intro h; subst h; exact absurd hm (by decide)
  have hct : strLower (r.ctype.getD "") ≠ "" := by
    intro h; rw [h] at hit; exact absurd hit (by decide)
  simp +decide [proxyImageSniff, proxyImageMin, hu, hne, hm, hok, hit, hct]


/-- Concrete instance of the claim C4 theorem at a declared image/png with
JPEG magic bytes. -/
theorem relay_image_type_passthrough_witness :
    sniffImageType upC4.firstChunk ≠ some "image/png" ∧
    (proxyImageSniff qReqC4 (some upC4)).status = 200 ∧
    (proxyImageSniff qReqC4 (some upC4)).contentType = some "image/png" ∧
    (proxyImageMin qReqC4 (some upC4)).status = 200 ∧
    (proxyImageMin qReqC4 (some upC4)).contentType = some "image/png" := by
  have h := relay_image_type_passthrough qReqC4 "http://cdn.example/p" upC4 rfl (by decide)
    rfl (by decide)
  exact ⟨by decide, h.1, h.2.1, h.2.2.1, h.2.2.2⟩

/-- Claim C5: in both Relay variants, a missing url parameter, or a url not
matching the case-insensitive pattern for http or https, is answered 400 with
an ok false JSON body and no upstream fetch is attempted. -/
theorem relay_bad_url_rejected_400
    (q : QueryParams) (f g : Option UpstreamResp)
    (hbad : ∀ s, q.url = some s → matchesHttpUrl s = false) :
    (proxyImageSniff q f).status = 400 ∧ (proxyImageSniff q f).okJson = some false ∧
    (proxyImageSniff q f).fetchAttempted = false ∧
    (proxyImageMin q g).status = 400 ∧ (proxyImageMin q g).okJson = some false ∧
    (proxyImageMin q g).fetchAttempted = false := by
  cases hqu : q.url with
  | none => simp [proxyImageSniff, proxyImageMin, hqu]
  | some s =>
    have hm := hbad s hqu
    by_cases hs : s = ""
    · subst hs; simp [proxyImageSniff, proxyImageMin, hqu]
    · simp [proxyImageSniff, proxyImageMin, hqu, hs, hm]

/-- Concrete instance of the claim C5 theorem at an absent url. -/
theorem relay_bad_url_rejected_400_witness :
    (proxyImageSniff {} none).status = 400 ∧ (proxyImageSniff {} none).okJson = some false ∧
    (proxyImageSniff {} none).fetchAttempted = false ∧
    (proxyImageMin {} none).status = 400 ∧ (proxyImageMin {} none).okJson = some false ∧
    (proxyImageMin {} none).fetchAttempted = false :=
  relay_bad_url_rejected_400 {} none none (fun s h => by simp at h)
/-- Claim C10: for POST /image the allowAny flag the proxy finally computes
equals the JavaScript truthiness of the JSON body field: the strings false
and 0 enable it, while false, 0, null and an absent field leave it off. -/
theorem post_allowAny_truthiness :
    (∀ a : Option JSVal, postImageAllowAny a = jsTruthyOpt a) ∧
    postImageAllowAny (some (.vStr "false")) = true ∧
    postImageAllowAny (some (.vStr "0")) = true ∧
    postImageAllowAny (some (.vBool false)) = false ∧
    postImageAllowAny (some (.vNum (.fin 0))) = false ∧
    postImageAllowAny (some .vNull) = false ∧
    postImageAllowAny none = false := by
  refine ⟨?_, by decide, by decide, by decide, by decide, by decide, by decide⟩
  intro a
  cases hja : jsTruthyOpt a <;>
    simp [postImageAllowAny, postAllowAnyParam, allowAnyFlag, hja]

/-- Claim C9: in the Downloader argument parser an explicit 0 is
indistinguishable from omitting the flag: retry 0 yields retries 2 and
concurrency 0 yields concurrency 4, the same as passing nothing. -/
theorem dl_zero_flag_uses_default :
    (parseArgs ["--retry", "0"]).retries = .fin 2 ∧
    (parseArgs ["--concurrency", "0"]).concurrency = .fin 4 ∧
    (parseArgs []).retries = .fin 2 ∧ (parseArgs []).concurrency = .fin 4 := by decide

/-- Claim C8: in the Relay header builder (both variants) and the Downloader
argument parser, a non-empty auth value already starting with Bearer or Basic
becomes the Authorization header unchanged, and any other value is prefixed
with Bearer and a space. -/
theorem auth_bearer_prefixing (v : String) (hv : v ≠ "") :
    ((parseHeadersBase { auth := some v }).lookup "Authorization" =
      some (if strStartsWith v "Bearer " || strStartsWith v "Basic " then v
            else "Bearer " ++ v)) ∧
    ((parseHeadersDefaults { auth := some v }).lookup "Authorization" =
      some (if strStartsWith v "Bearer " || strStartsWith v "Basic " then v
            else "Bearer " ++ v)) ∧
    ((parseArgs ["--auth", v]).headers.lookup "Authorization" =
      some (some (if strStartsWith v "Bearer " || strStartsWith v "Basic " then v
                  else "Bearer " ++ v))) := by
  have hbase : parseHeadersBase { auth := some v } = [("Authorization", authValue v)] := by
    simp +decide [parseHeadersBase, pushHeader, setAssoc, hv]
  have hdef : parseHeadersDefaults { auth := some v } =
      [("Authorization", authValue v), ("Accept", acceptDefault),
        ("User-Agent", userAgentDefault)] := by
    unfold parseHeadersDefaults
    rw [hbase]
    simp +decide [List.lookup]
  have hdl : parseArgs ["--auth", v] =
      { dlDefaults with headers := [("Authorization", some (authValue v))] } := by
    simp +decide [parseArgs, parseArgsGo, hv, setAssoc, dlDefaults]
  refine ⟨?_, ?_, ?_⟩
  · rw [hbase]; simp [authValue]
  · rw [hdef]; simp [authValue]
  · rw [hdl]; simp [authValue]

/-- Concrete instances of the claim C8 theorem. -/
theorem auth_bearer_prefixing_witness :
    ((parseHeadersBase { auth := some "tok123" }).lookup "Authorization" =
      some "Bearer tok123") ∧
    ((parseHeadersBase { auth := some "Basic abc" }).lookup "Authorization" =
      some "Basic abc") ∧
    ((parseArgs ["--auth", "tok123"]).headers.lookup "Authorization" =
      some (some "Bearer tok123")) := by
  have h1 := auth_bearer_prefixing "tok123" (by decide)
  have h2 := auth_bearer_prefixing "Basic abc" (by decide)
  refine ⟨?_, ?_, ?_⟩
  · have := h1.1; simpa using this
  · have := h2.1; simpa using this
  · have := h1.2.2; simpa using this


lemma strMk_data (l : List Char) : (String.mk l).data = l := rfl

lemma natDec_data (n : Nat) : (natDec n).data = natDecL n := rfl

lemma digitChar_decVal {d : Nat} (h : d < 10) : decDigitVal (Nat.digitChar d) = d := by
  interval_cases d <;> rfl

lemma natDecAux_valL : ∀ fuel n, n ≤ fuel → valL (natDecAux fuel n) = n := by
  intro fuel
  induction fuel with
  | zero => intro n h; interval_cases n; rfl
  | succ f ih =>
    intro n h
    match n with
    | 0 => rfl
    | m + 1 =>
      have hd : (m + 1) % 10 < 10 := Nat.mod_lt _ (by norm_num)
      have hlt : (m + 1) / 10 < m + 1 := Nat.div_lt_self (by omega) (by norm_num)
      have hq : (m + 1) / 10 ≤ f := by omega
      have hstep : valL (natDecAux (f + 1) (m + 1))
          = decDigitVal (Nat.digitChar ((m + 1) % 10)) + 10 * valL (natDecAux f ((m + 1) / 10)) :=
        rfl
      rw [hstep, digitChar_decVal hd, ih _ hq]
      omega

lemma natDecL_inj {m n : Nat} (h : natDecL m = natDecL n) : m = n := by
  unfold natDecL at h
  by_cases hm : m = 0 <;> by_cases hn : n = 0
  · omega
  · exfalso
    simp only [hm, if_true, if_neg hn] at h
    have h2 : natDecAux n n = ['0'] := by
      have := congrArg List.reverse h
      simpa using this.symm
    have hv := natDecAux_valL n n le_rfl
    rw [h2] at hv
    simp [valL, decDigitVal] at hv
    exact hn hv.symm
  · exfalso
    simp only [hn, if_true, if_neg hm] at h
    have h2 : natDecAux m m = ['0'] := by
      have := congrArg List.reverse h
      simpa using this
    have hv := natDecAux_valL m m le_rfl
    rw [h2] at hv
    simp [valL, decDigitVal] at hv
    exact hm hv.symm
  · simp only [if_neg hm, if_neg hn] at h
    have h2 : natDecAux m m = natDecAux n n := by
      have := congrArg List.reverse h
      simpa using this
    have hvm := natDecAux_valL m m le_rfl
    rw [h2, natDecAux_valL n n le_rfl] at hvm
    omega

lemma candPath_inj {dir name ext : String} {i j : Nat}
    (h : candPath dir name ext i = candPath dir name ext j) : i = j := by
  have hd := congrArg String.data h
  simp only [candPath, String.data_append, List.append_assoc, natDec_data] at hd
  have h1 := List.append_cancel_left hd
  have h2 := List.append_cancel_left h1
  have h3 := List.append_cancel_left h2
  have h4 := List.append_cancel_left h3
  exact natDecL_inj (List.append_cancel_right h4)

lemma p0_ne_candPath (dir name ext : String) (i : Nat) :
    dir ++ "/" ++ (name ++ ext) ≠ candPath dir name ext i := by
  intro h
  have hd := congrArg String.data h
  simp only [candPath, String.data_append, List.append_assoc] at hd
  have h1 := List.append_cancel_left hd
  have h2 := List.append_cancel_left h1
  have h3 := List.append_cancel_left h2
  have hlen := congrArg List.length h3
  have e1 : (" (" : String).data.length = 2 := rfl
  have e2 : (")" : String).data.length = 1 := rfl
  simp [List.length_append, e1, e2] at hlen
  omega

lemma extSplit_append (base : String) : (extSplit base).1 ++ (extSplit base).2 = base := by
  unfold extSplit
  cases h : lastDotIdx base.data with
  | none => simp
  | some i =>
    by_cases hi : i > 0
    · apply String.ext
      simp [hi, String.data_append, strMk_data, List.take_append_drop]
    · simp [hi]


lemma cseqNE_inj (dir name ext : String) : Function.Injective (cseqNE dir name ext) := by
  intro i j h
  unfold cseqNE at h
  by_cases hi : i = 0 <;> by_cases hj : j = 0
  · omega
  · rw [if_pos hi, if_neg hj] at h
    exact absurd h (p0_ne_candPath dir name ext j)
  · rw [if_neg hi, if_pos hj] at h
    exact absurd h.symm (p0_ne_candPath dir name ext i)
  · rw [if_neg hi, if_neg hj] at h
    exact candPath_inj h

lemma exists_free_cseq (fs : List String) (dir name ext : String) :
    ∃ j, j ≤ fs.length ∧ cseqNE dir name ext j ∉ fs := by
  by_contra hc
  push_neg at hc
  have hnd : ((List.range (fs.length + 1)).map (cseqNE dir name ext)).Nodup :=
    (List.nodup_range (fs.length + 1)).map (cseqNE_inj dir name ext)
  have hsub : ((List.range (fs.length + 1)).map (cseqNE dir name ext)) ⊆ fs := by
    intro x hx
    simp only [List.mem_map, List.mem_range] at hx
    obtain ⟨j, hj, rfl⟩ := hx
    exact hc j (by omega)
  have hle := (List.subperm_of_subset hnd hsub).length_le
  have : fs.length + 1 ≤ fs.length := by simpa using hle
  omega

lemma uniquePathGo_succ (fs : List String) (dir name ext : String) (fuel i : Nat) (p : String) :
    uniquePathGo fs dir name ext (fuel + 1) i p =
      if p ∈ fs then uniquePathGo fs dir name ext fuel (i + 1) (candPath dir name ext i)
      else p := rfl

lemma uniquePathGo_not_mem (fs : List String) (dir name ext : String) :
    ∀ (fuel i : Nat) (p : String),
      (∃ j, j < fuel ∧ (if j = 0 then p else candPath dir name ext (i + j - 1)) ∉ fs) →
      uniquePathGo fs dir name ext fuel i p ∉ fs := by
  intro fuel
  induction fuel with
  | zero =>
    rintro i p ⟨j, hj, _⟩
    omega
  | succ f ih =>
    rintro i p ⟨j, hj, hfree⟩
    rw [uniquePathGo_succ]
    by_cases hp : p ∈ fs
    · rw [if_pos hp]
      rcases j with _ | j'
      · simp at hfree
        exact absurd hp hfree
      · have hfree' : candPath dir name ext (i + j') ∉ fs := by
          have e : i + (j' + 1) - 1 = i + j' := by omega
          simpa [e] using hfree
        apply ih
        rcases j' with _ | k
        · exact ⟨0, by omega, by simpa using hfree'⟩
        · refine ⟨k + 1, by omega, ?_⟩
          have e2 : i + 1 + (k + 1) - 1 = i + (k + 1) := by omega
          simpa [e2] using hfree'
    · rw [if_neg hp]
      exact hp

lemma uniquePath_not_mem (fs : List String) (dir base : String) :
    uniquePath fs dir base ∉ fs := by
  unfold uniquePath
  obtain ⟨j, hj, hfree⟩ := exists_free_cseq fs dir (extSplit base).1 (extSplit base).2
  apply uniquePathGo_not_mem
  refine ⟨j, by omega, ?_⟩
  rcases j with _ | k
  · have hb := extSplit_append base
    simpa [cseqNE, hb] using hfree
  · have e : 1 + (k + 1) - 1 = k + 1 := by omega
    simpa [cseqNE, e] using hfree

/-- Claim C7: uniquePath returns dir/base when free; when dir/base exists
and the first suffixed candidate is free, a second download of the same base
name gets the base with a parenthesized 1 inserted before the extension, a
path distinct from the first; and in general the returned path never names
an existing file, the counter being incremented until a free one is found. -/
theorem uniquePath_collision_spec :
    (∀ fs dir base, (dir ++ "/" ++ base) ∉ fs → uniquePath fs dir base = dir ++ "/" ++ base) ∧
    (∀ fs dir base, (dir ++ "/" ++ base) ∉ fs →
        candPath dir (extSplit base).1 (extSplit base).2 1 ∉ fs →
        uniquePath (fs ++ [dir ++ "/" ++ base]) dir base
          = candPath dir (extSplit base).1 (extSplit base).2 1 ∧
        candPath dir (extSplit base).1 (extSplit base).2 1 ≠ dir ++ "/" ++ base) ∧
    (∀ fs dir base, uniquePath fs dir base ∉ fs) := by
  refine ⟨?_, ?_, fun fs dir base => uniquePath_not_mem fs dir base⟩
  · intro fs dir base h
    unfold uniquePath
    rw [uniquePathGo_succ, if_neg h]
  · intro fs dir base h0 h1
    have hb := extSplit_append base
    have hne : candPath dir (extSplit base).1 (extSplit base).2 1 ≠ dir ++ "/" ++ base := by
      intro h
      apply p0_ne_candPath dir (extSplit base).1 (extSplit base).2 1
      rw [hb]
      exact h.symm
    refine ⟨?_, hne⟩
    unfold uniquePath
    rw [show (fs ++ [dir ++ "/" ++ base]).length + 1 = fs.length + 1 + 1 from by simp]
    rw [uniquePathGo_succ, if_pos (by simp)]
    rw [uniquePathGo_succ, if_neg (by simp [h1, hne])]

/-- Concrete instances of the claim C7 theorem. -/
theorem uniquePath_collision_spec_witness :
    uniquePath [] "downloads" "a.jpg" = "downloads/a.jpg" ∧
    uniquePath ["downloads/a.jpg"] "downloads" "a.jpg" = "downloads/a (1).jpg" ∧
    ("downloads/a (1).jpg" : String) ≠ "downloads/a.jpg" := by
  have h1 := uniquePath_collision_spec.1 [] "downloads" "a.jpg" (by decide)
  have h2 := uniquePath_collision_spec.2.1 [] "downloads" "a.jpg" (by decide) (by decide)
  exact ⟨h1, h2.1, by decide⟩

lemma downloadOneGo_succ (url outDir : String) (world : Nat → AttemptSpec) (retries : JSNum)
    (fuel made : Nat) (fs : List String) (lastErr : Option String) (delays : List Nat) :
    downloadOneGo url outDir world retries (fuel + 1) made fs lastErr delays =
      if !jsLeNat made retries then
        ⟨url, false, none, some (lastErr.getD "null"), fs, made, delays⟩
      else
        match runAttempt url outDir fs (world made) with
        | .ok (p, fs2) => ⟨url, true, some p, none, fs2, made + 1, delays⟩
        | .error (m, fs2) =>
          if jsLeNat (made + 1) retries then
            downloadOneGo url outDir world retries fuel (made + 1) fs2 (some m)
              (delays ++ [250 * (made + 1)])
          else downloadOneGo url outDir world retries fuel (made + 1) fs2 (some m) delays :=
  rfl

lemma downloadOneGo_fail_step {url outDir : String} {world : Nat → AttemptSpec}
    {retries : JSNum} {fuel made : Nat} {fs fs2 : List String} {m : String}
    {lastErr : Option String} {delays : List Nat}
    (hle : jsLeNat made retries = true)
    (he : runAttempt url outDir fs (world made) = .error (m, fs2)) :
    downloadOneGo url outDir world retries (fuel + 1) made fs lastErr delays =
      if jsLeNat (made + 1) retries then
        downloadOneGo url outDir world retries fuel (made + 1) fs2 (some m)
          (delays ++ [250 * (made + 1)])
      else downloadOneGo url outDir world retries fuel (made + 1) fs2 (some m) delays := by
  rw [downloadOneGo_succ, if_neg (by simp [hle]), he]

lemma downloadOneGo_exit {url outDir : String} {world : Nat → AttemptSpec}
    {retries : JSNum} {made : Nat} {fs : List String}
    {lastErr : Option String} {delays : List Nat} (fuel : Nat)
    (hle : jsLeNat made retries = false) :
    downloadOneGo url outDir world retries fuel made fs lastErr delays =
      ⟨url, false, none, some (lastErr.getD "null"), fs, made, delays⟩ := by
  cases fuel with
  | zero => rfl
  | succ f => rw [downloadOneGo_succ, if_pos (by simp [hle])]

lemma runAttempt_error (url outDir : String) (fs : List String) {a : AttemptSpec} {m : String}
    (h : failMsgOf a = some m) :
    ∃ fs2, runAttempt url outDir fs a = .error (m, fs2) := by
  cases a with
  | netErr s =>
    simp [failMsgOf] at h
    exact ⟨fs, by simp [runAttempt, h]⟩
  | resp rok status ctype cdisp streamErr =>
    by_cases hok : rok
    · by_cases hct : strStartsWith (strLower (ctype.getD "")) "image/"
      · cases hfd : filenameFromDispositionE cdisp with
        | error e =>
          simp [failMsgOf, hok, hct, hfd] at h
          exact ⟨fs, by simp [runAttempt, hok, hct, hfd, h]⟩
        | ok fOpt =>
          simp [failMsgOf, hok, hct, hfd] at h
          cases fOpt with
          | some s =>
            exact ⟨fs ++ [uniquePath fs outDir (if s = "" then pickFilenameFromUrl url else s)],
              by simp [runAttempt, hok, hct, hfd, h]⟩
          | none =>
            exact ⟨fs ++ [uniquePath fs outDir (pickFilenameFromUrl url)],
              by simp [runAttempt, hok, hct, hfd, h]⟩
      · simp [failMsgOf, hok, hct] at h
        exact ⟨fs, by simp [runAttempt, hok, hct, h]⟩
    · simp [failMsgOf, hok] at h
      exact ⟨fs, by simp [runAttempt, hok, h]⟩

/-- Claim C6: with retries set to 2 and every attempt failing, downloadOne
makes exactly 3 fetch attempts, sleeps 250 ms after the first failure and
500 ms after the second with no delay after the last, and records a failure
carrying the last error message. -/
theorem dl_retry_backoff (url outDir : String) (hdrs : List (String × Option String))
    (fs0 : List String) (world : Nat → AttemptSpec) (m0 m1 m2 : String)
    (h0 : failMsgOf (world 0) = some m0) (h1 : failMsgOf (world 1) = some m1)
    (h2 : failMsgOf (world 2) = some m2) :
    (downloadOne url hdrs outDir (.fin 2) world fs0).attemptsMade = 3 ∧
    (downloadOne url hdrs outDir (.fin 2) world fs0).delays = [250, 500] ∧
    (downloadOne url hdrs outDir (.fin 2) world fs0).resOk = false ∧
    (downloadOne url hdrs outDir (.fin 2) world fs0).resErr = some m2 := by
  obtain ⟨fsA, eA⟩ := runAttempt_error url outDir fs0 h0
  obtain ⟨fsB, eB⟩ := runAttempt_error url outDir fsA h1
  obtain ⟨fsC, eC⟩ := runAttempt_error url outDir fsB h2
  have hdl : downloadOne url hdrs outDir (.fin 2) world fs0
      = ⟨url, false, none, some m2, fsC, 3, [250, 500]⟩ := by
    unfold downloadOne
    rw [show jsAttemptBound (JSNum.fin 2) + 1 = 3 + 1 from by decide]
    rw [downloadOneGo_fail_step (by decide) eA, if_pos (by decide)]
    norm_num
    rw [downloadOneGo_fail_step (by decide) eB, if_pos (by decide)]
    norm_num
    rw [downloadOneGo_fail_step (by decide) eC, if_neg (by decide)]
    rw [downloadOneGo_exit _ (by decide)]
    simp
  rw [hdl]
  exact ⟨rfl, rfl, rfl, rfl⟩

/-- Concrete instance of the claim C6 theorem. -/
theorem dl_retry_backoff_witness :
    (downloadOne "http://h/a.jpg" [] "downloads" (.fin 2) (fun _ => .netErr "boom")
      []).attemptsMade = 3 ∧
    (downloadOne "http://h/a.jpg" [] "downloads" (.fin 2) (fun _ => .netErr "boom")
      []).delays = [250, 500] ∧
    (downloadOne "http://h/a.jpg" [] "downloads" (.fin 2) (fun _ => .netErr "boom")
      []).resOk = false ∧
    (downloadOne "http://h/a.jpg" [] "downloads" (.fin 2) (fun _ => .netErr "boom")
      []).resErr = some "boom" :=
  dl_retry_backoff "http://h/a.jpg" "downloads" [] [] (fun _ => .netErr "boom")
    "boom" "boom" "boom" rfl rfl rfl


/-- Claim C3 (code bug evidence): a download whose body stream fails while
being written exhausts its attempts, yet the file created at the resolved
collision-free path downloads/a.jpg remains on the file system, so a failed
download does not leave the file system untouched. -/
theorem dl_failed_stream_leaves_file :
    (downloadOne "http://h/a.jpg" [] "downloads" (.fin 0) worldStreamFail []).resOk = false ∧
    (downloadOne "http://h/a.jpg" [] "downloads" (.fin 0) worldStreamFail []).resErr
      = some "Error: read ECONNRESET" ∧
    (downloadOne "http://h/a.jpg" [] "downloads" (.fin 0) worldStreamFail []).fsAfter
      = ["downloads/a.jpg"] ∧
    uniquePath [] "downloads" (pickFilenameFromUrl "http://h/a.jpg") = "downloads/a.jpg" := by
  decide
